/-
A verification development for the structural type-matching core and the
`abc` overlay of this repository.

The matcher itself is not present in the repository snapshot (only its test
suite, `pytype/tests/test_match.py`, is), so the matcher definitions below
are modelled from the specification (spec.md, sections 3 and 4.1), rule by
rule.  The `abc` overlay (`pytype/abc_overlay.py`) is present and is embedded
directly.
-/
import Mathlib

namespace Pytype

/-- Modelled from the spec (section 3, "TypeExpression"): the closed tagged
variant of type expressions — concrete class, parameterized generic, union,
callable signature, type variable (with optional bound and constraint set),
Any, NoneType and class-object wrapper.  Class identities are numbers. -/
inductive TypeExpr where
  | concrete (classId : Nat)
  | parameterized (classId : Nat) (args : List TypeExpr)
  | union (alts : List TypeExpr)
  | callable (params : List TypeExpr) (ret : TypeExpr) (isVariadic : Bool)
  | typeVar (id : Nat) (bound : Option TypeExpr) (constraints : List TypeExpr)
  | any
  | noneType
  | classObject (inner : TypeExpr)

/-- Modelled from the spec (section 3): the substitution environment, a
mapping from type-variable identity to resolved type expression. -/
def Env := List (Nat × TypeExpr)

/-- The empty substitution environment of a fresh top-level match call. -/
def emptyEnv : Env := []

/-- Look a type variable up in a substitution environment. -/
def envLookup : Env → Nat → Option TypeExpr
  | [], _ => none
  | (w, t) :: rest, v => if w = v then some t else envLookup rest v

/-- Record a new type-variable binding in the environment. -/
def envBind (env : Env) (v : Nat) (t : TypeExpr) : Env := (v, t) :: env

/-- Modelled from the spec (section 7): the kinds of match failure. -/
inductive Mismatch where
  | arityMismatch
  | boundViolation
  | constraintViolation
  | hierarchyMismatch
  | varianceConflict
  | unificationConflict
  | recursionLimitExceeded
  | mismatch (actual formal : TypeExpr)

/-- Modelled from the spec (section 4.1): the result of
`match(actual, formal, env)` — either an updated environment or a Mismatch. -/
inductive MatchResult where
  | ok (env : Env)
  | fail (m : Mismatch)

/-- Whether a match result is a success. -/
def isSuccess : MatchResult → Bool
  | .ok _ => true
  | .fail _ => false

/-- The resolved bindings of a match result, when it succeeded. -/
def resolvedEnv : MatchResult → Option Env
  | .ok e => some e
  | .fail _ => none

/-- Modelled from the spec (section 3, "Class Hierarchy Index"): the
per-class list of direct base classes.  The declared-parameter lists and the
generic base parameterizations of the full index are not needed by any
verified claim and are omitted. -/
def Hierarchy := Nat → List Nat

/-- The class identity of the universal top type (`object`). -/
def objectId : Nat := 0

/-- Bound on hierarchy-walking depth; the spec (section 5) requires every
recursion to be cut off at a configured limit rather than diverging on
malformed input. -/
def classDepthLimit : Nat := 100

/-- Modelled from the spec (section 4.1, rule 9): `sup` is reachable walking
up from `sub` through the Class Hierarchy Index — that is, `sup` is an
ancestor of `sub` or identical to it. -/
def isAncestor (h : Hierarchy) : Nat → Nat → Nat → Bool
  | 0, _, _ => false
  | n + 1, sup, sub => sub == sup || (h sub).any fun b => isAncestor h n sup b

/-- Match a list of `(actualSlot, formalSlot)` pairs in order, threading the
environment through, failing at the first failure.  `m` is the one-step
matcher for the current recursion depth. -/
def seqMatch (m : TypeExpr → TypeExpr → Env → MatchResult) :
    List (TypeExpr × TypeExpr) → Env → MatchResult
  | [], env => .ok env
  | (a, f) :: rest, env =>
    match m a f env with
    | .ok e1 => seqMatch m rest e1
    | .fail ms => .fail ms

/-- Modelled from the spec (section 4.1, rule 3): scan a constraint set in
declared order, and fix the type variable `v` to the first constraint that
the actual independently matches — never to the actual itself.  The probe
match's environment is discarded ("independently"). -/
def firstConstraint (m : TypeExpr → TypeExpr → Env → MatchResult)
    (v : Nat) (actual : TypeExpr) : List TypeExpr → Env → MatchResult
  | [], _ => .fail .constraintViolation
  | c :: rest, env =>
    match m actual c env with
    | .ok _ => .ok (envBind env v c)
    | .fail _ => firstConstraint m v actual rest env

/-- Modelled from the spec (section 4.1, rule 5): a formal union succeeds iff
the actual matches at least one alternative, in declared order; the first
success's environment is returned. -/
def firstAlt (m : TypeExpr → TypeExpr → Env → MatchResult)
    (actual whole : TypeExpr) : List TypeExpr → Env → MatchResult
  | [], _ => .fail (.mismatch actual whole)
  | f :: rest, env =>
    match m actual f env with
    | .ok e => .ok e
    | .fail _ => firstAlt m actual whole rest env

/-- Modelled from the spec (section 4.1): one step of the matcher, with the
recursive occurrences abstracted as `m`.  The rules appear in the spec's
priority order: 1 formal Any; 2 actual Any; 3 formal TypeVar (already-bound
unification, bound check, constraint scan); then a TypeVar in the actual
slot, which rule 6's note requires to resolve against the other side (this
is how a TypeVar in a formal Callable's parameter position, passed reversed,
gets bound); 4 actual union (every alternative, threading one environment);
5 formal union (first matching alternative); 6 Callable against Callable
(parameters contravariant — arguments reversed — return covariant, arity
checked unless the actual is variadic, in which case each formal parameter
is matched against Any); 7 Parameterized on the same class (element-wise,
covariant default; the declared-variance table and the rule-8 ancestor
projection are exercised by no verified claim and fall to the catch-all);
9 Concrete against Concrete via the Hierarchy Index; 10 formal NoneType;
11 the catch-all Mismatch. -/
def matchStep (h : Hierarchy) (m : TypeExpr → TypeExpr → Env → MatchResult)
    (actual formal : TypeExpr) (env : Env) : MatchResult :=
  match formal, actual with
  | .any, _ => .ok env
  | _, .any => .ok env
  | .typeVar v bd cs, _ =>
    (match envLookup env v with
     | some t =>
       (match m actual t env with
        | .ok e => .ok e
        | .fail _ => .fail .unificationConflict)
     | none =>
       (match bd with
        | some b =>
          (match m actual b env with
           | .ok _ => .ok (envBind env v actual)
           | .fail _ => .fail .boundViolation)
        | none =>
          (match cs with
           | [] => .ok (envBind env v actual)
           | _ :: _ => firstConstraint m v actual cs env)))
  | _, .typeVar v _ _ =>
    (match envLookup env v with
     | some t =>
       (match m t formal env with
        | .ok e => .ok e
        | .fail _ => .fail .unificationConflict)
     | none => .ok (envBind env v formal))
  | _, .union alts => seqMatch m (alts.map fun a => (a, formal)) env
  | .union alts, _ => firstAlt m actual formal alts env
  | .callable fps fr _, .callable aps ar av =>
    if av then
      (match seqMatch m (fps.map fun p => (p, .any)) env with
       | .ok e1 => m ar fr e1
       | .fail ms => .fail ms)
    else if aps.length < fps.length then .fail .arityMismatch
    else
      (match seqMatch m (fps.zip aps) env with
       | .ok e1 => m ar fr e1
       | .fail ms => .fail ms)
  | .parameterized fc fargs, .parameterized ac aargs =>
    if fc = ac then seqMatch m (aargs.zip fargs) env
    else .fail .hierarchyMismatch
  | .concrete fid, .concrete aid =>
    if fid = objectId then .ok env
    else if isAncestor h classDepthLimit fid aid then .ok env
    else .fail .hierarchyMismatch
  | .noneType, .noneType => .ok env
  | _, _ => .fail (.mismatch actual formal)

/-- Modelled from the spec (sections 4.1 and 5): the recursive matcher
`match(actual, formal, env)`, with the spec-mandated maximum nesting depth
as an explicit fuel argument; exhausting it fails with
`RecursionLimitExceeded` instead of looping. -/
def matchExpr (h : Hierarchy) : Nat → TypeExpr → TypeExpr → Env → MatchResult
  | 0 => fun _ _ _ => .fail .recursionLimitExceeded
  | fuel + 1 => matchStep h (matchExpr h fuel)

/-- The class identity of `int`. -/
def intId : Nat := 1

/-- The class identity of `bool`. -/
def boolId : Nat := 2

/-- The class identity of `float`. -/
def floatId : Nat := 3

/-- The class identity of `str`. -/
def strId : Nat := 4

/-- The class identity of the user class `A` of
`test_match.py, testBoundInterpreterFunctionAgainstCallable`. -/
def classAId : Nat := 5

/-- Modelled from the spec and the Python 2 builtins the test suite relies
on: the Class Hierarchy Index for the classes the verified claims mention.
`bool` subclasses `int` (spec section 8 calls `bool` a "subtype of `int`");
`int`, `float`, `str` and the test-suite class `A` subclass `object`. -/
def pyHierarchy : Hierarchy := fun c =>
  if c = intId then [objectId]
  else if c = boolId then [intId]
  else if c = floatId then [objectId]
  else if c = strId then [objectId]
  else if c = classAId then [objectId]
  else []

/-- The concrete type `object`, the universal top type. -/
def objectTy : TypeExpr := .concrete objectId

/-- The concrete type `int`. -/
def intTy : TypeExpr := .concrete intId

/-- The concrete type `bool`. -/
def boolTy : TypeExpr := .concrete boolId

/-- The concrete type `float`. -/
def floatTy : TypeExpr := .concrete floatId

/-- The concrete type `str`. -/
def strTy : TypeExpr := .concrete strId

/-- The concrete type of the test-suite class `A`. -/
def classATy : TypeExpr := .concrete classAId

/-- Modelled from the spec (section 6): a method signature as consumed from
the abstract interpreter — ordered parameter types (the receiver first for a
method), return type, variadic flag, and whether the value is a bound
method. -/
structure MethodSig where
  params : List TypeExpr
  ret : TypeExpr
  isVariadic : Bool
  isBound : Bool

/-- Modelled from the spec (section 4.1, rule 6): the actual `Callable`
signature used for comparison — the receiver parameter is stripped from a
bound method's signature, and kept for an unbound method. -/
def methodActualCallable (sig : MethodSig) : TypeExpr :=
  .callable (if sig.isBound then sig.params.drop 1 else sig.params)
    sig.ret sig.isVariadic

/-- Match a method value against a formal type: the comparison happens on
the method's actual `Callable` signature, receiver stripped when bound. -/
def matchMethod (h : Hierarchy) (fuel : Nat) (sig : MethodSig)
    (formal : TypeExpr) (env : Env) : MatchResult :=
  matchExpr h fuel (methodActualCallable sig) formal env

/-!
The embedding of `pytype/abc_overlay.py`.  Variables are mutable cells of
the interpreter state holding a list of values (`func_var.data` /
`v.bindings`), so the state is embedded explicitly: a store maps variable
identities to value lists and records the next fresh identity, and each
value carries its Python type (`abstract.Function`, `abstract.BoundFunction`,
`special_builtins.PropertyInstance`, or anything else) together with its
`is_abstract` flag.
-/

/-- A CFG node, opaque to the overlay. -/
abbrev Node := Nat

/-- The identity of a variable cell in the interpreter state. -/
abbrev VarId := Nat

/-- The Python class of a value, as far as the overlay's `isinstance` checks
can distinguish it: `abstract.Function`, `abstract.BoundFunction` (not a
`Function` subclass — `abc_overlay.py` line 40 tests for both explicitly),
`special_builtins.PropertyInstance`, or any other type. -/
inductive ValKind where
  | function
  | boundFunction
  | propertyInstance
  | other
deriving DecidableEq, Repr

/-- A value in a variable's binding list: its class and its `is_abstract`
attribute. -/
structure Value where
  kind : ValKind
  is_abstract : Bool
deriving DecidableEq, Repr

/-- The interpreter state the overlay mutates: contents of each variable
cell, and the next fresh variable identity. -/
structure Store where
  contents : VarId → List Value
  nextId : VarId

/-- Mutate one variable cell in place, leaving every other cell and the
fresh-identity counter unchanged. -/
def updateVar (s : Store) (v : VarId) (f : List Value → List Value) : Store :=
  { s with contents := fun w => if w = v then f (s.contents w) else s.contents w }

/-- Allocate a fresh variable cell holding the given values
(`to_variable`). -/
def allocVar (s : Store) (vals : List Value) : VarId × Store :=
  (s.nextId,
   { contents := fun w => if w = s.nextId then vals else s.contents w,
     nextId := s.nextId + 1 })

/-- `abc_overlay.py` lines 39-41: `func.is_abstract = True` for values that
are `abstract.Function` or `abstract.BoundFunction` instances; any other
value is left unchanged. -/
def markIfFunctionOrBound (v : Value) : Value :=
  if v.kind = .function ∨ v.kind = .boundFunction
  then { v with is_abstract := true } else v

/-- `abc_overlay.py` lines 56-62: `f.is_abstract = True` only for values
that are `abstract.Function` instances; any other value is left
unchanged. -/
def markIfFunction (v : Value) : Value :=
  if v.kind = .function then { v with is_abstract := true } else v

/-- The call arguments of `AbstractMethod.call`: positional argument
variables and the named-argument dictionary. -/
structure Args where
  posargs : List VarId
  namedargs : List (String × VarId)

/-- Dictionary lookup in the named arguments (`args.namedargs["function"]`);
`none` embeds the `KeyError` raised when the key is absent. -/
def lookupNamed : List (String × VarId) → String → Option VarId
  | [], _ => none
  | (k, v) :: rest, key => if k = key then some v else lookupNamed rest key

/-- `abc_overlay.py` lines 34-37: the function variable is taken from
`args.posargs[0]` when there are positional arguments, and only otherwise
from `args.namedargs["function"]`. -/
def getFunctionVar (args : Args) : Option VarId :=
  match args.posargs with
  | fv :: _ => some fv
  | [] => lookupNamed args.namedargs "function"

/-- `abc_overlay.py` lines 29-43, `AbstractMethod.call`: extract the
function variable, set `is_abstract` on each of its `Function` /
`BoundFunction` values in place, and return the input node together with
that very variable.  `none` embeds the `KeyError` on a missing `function`
named argument.  (`self._match_args(node, args)` on line 31 is external
argument checking — `abstract.PyTDFunction` is not part of this snapshot —
and may abort the call by raising before the body runs; the embedding
covers the executions that reach the extraction.) -/
def AbstractMethod.call (node : Node) (args : Args) (s : Store) :
    Option (Node × VarId × Store) :=
  match getFunctionVar args with
  | none => none
  | some fv => some (node, fv, updateVar s fv (List.map markIfFunctionOrBound))

/-- The `PropertyInstance` value produced by `AbstractProperty.call`. -/
def propertyInstanceValue : Value := ⟨.propertyInstance, false⟩

/-- `abc_overlay.py` lines 52-65, `AbstractProperty.call`: for every binding
of every property argument variable, set `is_abstract` if the value is an
`abstract.Function` instance (a non-`Function` binding is skipped without
any error — the comment on lines 57-58 defers that to a later
'property object is not callable' diagnostic); then allocate the `cls`
variable (`self.to_variable(node)`) and a fresh variable holding the new
`PropertyInstance`, and return the input node with the latter.
(`self._get_args(args)` is external — `special_builtins.PropertyTemplate`
is not part of this snapshot — so the extracted property-argument variables
are taken as the input `propertyArgs`.) -/
def AbstractProperty.call (node : Node) (propertyArgs : List VarId)
    (s : Store) : Node × VarId × Store :=
  let s1 := propertyArgs.foldl
    (fun st v => updateVar st v (List.map markIfFunction)) s
  let s2 := (allocVar s1 [⟨.other, false⟩]).2
  let (resId, s3) := allocVar s2 [propertyInstanceValue]
  (node, resId, s3)

/-! Helper lemmas shared by the claim theorems. -/

/-- Rule 1: a formal `Any` succeeds with the environment unchanged. -/
theorem matchExpr_formal_any (h : Hierarchy) (fuel : Nat) (a : TypeExpr)
    (env : Env) : matchExpr h (fuel + 1) a .any env = .ok env := by
  cases a <;> rfl

/-- Rule 2: an actual `Any` succeeds with the environment unchanged. -/
theorem matchExpr_actual_any (h : Hierarchy) (fuel : Nat) (a : TypeExpr)
    (env : Env) : matchExpr h (fuel + 1) .any a env = .ok env := by
  cases a <;> rfl

/-- Matching every formal parameter against `Any` (the variadic-actual path
of rule 6) succeeds and leaves the environment unchanged. -/
theorem seqMatch_formal_any (h : Hierarchy) (fuel : Nat)
    (fps : List TypeExpr) (env : Env) :
    seqMatch (matchExpr h (fuel + 1)) (fps.map fun p => (p, .any)) env
      = .ok env := by
  induction fps with
  | nil => rfl
  | cons p rest ih =>
    simp only [List.map_cons, seqMatch, matchExpr_formal_any]
    exact ih

/-- `bool` matches `int` in any environment: `int` is an ancestor of `bool`
in the hierarchy (`bool` subclasses `int`). -/
theorem matchExpr_bool_int (fuel : Nat) (env : Env) :
    matchExpr pyHierarchy (fuel + 1) (.concrete boolId) intTy env
      = .ok env := rfl

/-! The claim theorems. -/

/-- Claim C1, counterexample: matching the actual `Callable[[int], bool]`
against the formal `Callable[[bool], int]` does not fail — it succeeds with
no bindings, because the contravariant parameter check asks whether `int`
is an ancestor of `bool`, and `bool` subclasses `int`. -/
theorem contravariant_callable_bool_int_cex :
    matchExpr pyHierarchy 6 (.callable [intTy] boolTy false)
      (.callable [boolTy] intTy false) emptyEnv = .ok [] := rfl

/-- Claim C1, amended: for the formal `Callable[[bool], int]` and the actual
`Callable[[int], bool]`, match succeeds — the contravariant parameter check
requires `int` to be an ancestor of `bool`, which holds since `bool`
subclasses `int`; an actual parameter unrelated to `bool` (such as `str`)
makes the parameter check fail; and widening the actual's parameter to the
universal top type makes the parameter check pass independently of the
return check (a widened-parameter actual with an incompatible return fails
at the return alone). -/
theorem contravariant_callable_amended :
    matchExpr pyHierarchy 6 (.callable [intTy] boolTy false)
      (.callable [boolTy] intTy false) emptyEnv = .ok []
    ∧ matchExpr pyHierarchy 6 (.callable [strTy] intTy false)
      (.callable [boolTy] intTy false) emptyEnv = .fail .hierarchyMismatch
    ∧ matchExpr pyHierarchy 6 boolTy objectTy emptyEnv = .ok []
    ∧ matchExpr pyHierarchy 6 (.callable [objectTy] strTy false)
      (.callable [boolTy] intTy false) emptyEnv = .fail .hierarchyMismatch :=
  ⟨rfl, rfl, rfl, rfl⟩

/-- Claim C2: a formal `Callable[[T], T]` mentions `T` both in a parameter
and in the return position; matching it against the actual
`Callable[[int], str]` fails (the parameter binds `T := int`, and the
return occurrence, already bound, cannot unify with `str`), while matching
it against `Callable[[int], int]` succeeds with `T` resolved to `int`. -/
theorem typevar_unification_callable :
    matchExpr pyHierarchy 6 (.callable [intTy] strTy false)
      (.callable [.typeVar 10 none []] (.typeVar 10 none []) false) emptyEnv
      = .fail .unificationConflict
    ∧ matchExpr pyHierarchy 6 (.callable [intTy] intTy false)
      (.callable [.typeVar 10 none []] (.typeVar 10 none []) false) emptyEnv
      = .ok [(10, intTy)] :=
  ⟨rfl, rfl⟩

/-- Claim C3: matching the actual `bool` against an unbound formal TypeVar
constrained to `{int, float}` scans the constraints in declared order and
fixes the variable to the first constraint the actual independently matches:
the result binds it to `int` — a declared constraint, not to the actual
`bool` itself — in whatever environment the variable was unbound in. -/
theorem constrained_typevar_first_constraint (fuel : Nat) (env : Env)
    (hT : envLookup env 10 = none) :
    matchExpr pyHierarchy (fuel + 2) boolTy
      (.typeVar 10 none [intTy, floatTy]) env = .ok ((10, intTy) :: env) := by
  show matchStep pyHierarchy (matchExpr pyHierarchy (fuel + 1)) _ _ _ = _
  simp only [matchStep, boolTy]
  rw [hT]
  simp only [firstConstraint, matchExpr_bool_int, envBind]

/-- Witness for claim C3 at the fresh environment. -/
theorem constrained_typevar_first_constraint_witness :
    matchExpr pyHierarchy 2 boolTy (.typeVar 10 none [intTy, floatTy])
      emptyEnv = .ok [(10, intTy)] :=
  constrained_typevar_first_constraint 0 emptyEnv rfl

/-- Claim C4: matching the test suite's method
`A.f(self: A, x: int) -> bool` against formal Callables: when bound, the
receiver is stripped from the actual signature, giving `Callable[[int],
bool]`, which matches `Callable[[bool], int]`, fails `Callable[[A, bool],
int]` with an arity mismatch, and fails `Callable[[bool], str]` at the
return; when unbound, the receiver is kept and matched like any other
parameter, so `Callable[[bool], int]` fails (on the receiver parameter) and
`Callable[[A, bool], int]` succeeds. -/
theorem bound_method_receiver_strip :
    methodActualCallable ⟨[classATy, intTy], boolTy, false, true⟩
      = .callable [intTy] boolTy false
    ∧ methodActualCallable ⟨[classATy, intTy], boolTy, false, false⟩
      = .callable [classATy, intTy] boolTy false
    ∧ matchMethod pyHierarchy 6 ⟨[classATy, intTy], boolTy, false, true⟩
      (.callable [boolTy] intTy false) emptyEnv = .ok []
    ∧ matchMethod pyHierarchy 6 ⟨[classATy, intTy], boolTy, false, true⟩
      (.callable [classATy, boolTy] intTy false) emptyEnv
      = .fail .arityMismatch
    ∧ matchMethod pyHierarchy 6 ⟨[classATy, intTy], boolTy, false, true⟩
      (.callable [boolTy] strTy false) emptyEnv = .fail .hierarchyMismatch
    ∧ matchMethod pyHierarchy 6 ⟨[classATy, intTy], boolTy, false, false⟩
      (.callable [boolTy] intTy false) emptyEnv = .fail .hierarchyMismatch
    ∧ matchMethod pyHierarchy 6 ⟨[classATy, intTy], boolTy, false, false⟩
      (.callable [classATy, boolTy] intTy false) emptyEnv = .ok [] :=
  ⟨rfl, rfl, rfl, rfl, rfl, rfl, rfl⟩

/-- Claim C5: in a Callable-against-Callable match, a fixed-arity actual
with fewer parameters than the formal requires fails with `ArityMismatch`;
a variadic actual skips arity checking entirely and matches every formal
parameter against `Any` (which always succeeds), so the outcome is exactly
the return check regardless of the formal's parameter count. -/
theorem callable_arity_variadic (h : Hierarchy) (fuel : Nat)
    (aps fps : List TypeExpr) (ar fr : TypeExpr) (fv : Bool) (env : Env) :
    (aps.length < fps.length →
      matchExpr h (fuel + 1) (.callable aps ar false) (.callable fps fr fv)
        env = .fail .arityMismatch)
    ∧ matchExpr h (fuel + 2) (.callable aps ar true) (.callable fps fr fv)
        env = matchExpr h (fuel + 1) ar fr env := by
  constructor
  · intro hlt
    show matchStep h (matchExpr h fuel) _ _ _ = _
    simp only [matchStep, if_false, Bool.false_eq_true, if_pos hlt]
  · show matchStep h (matchExpr h (fuel + 1)) _ _ _ = _
    simp only [matchStep, if_true, seqMatch_formal_any]

/-- Witness for claim C5: a no-parameter actual against a one-parameter
formal fails with `ArityMismatch`, and a variadic no-parameter actual
against a two-parameter formal reduces to the return check. -/
theorem callable_arity_variadic_witness :
    matchExpr pyHierarchy 1 (.callable [] intTy false)
      (.callable [intTy] intTy false) emptyEnv = .fail .arityMismatch
    ∧ matchExpr pyHierarchy 2 (.callable [] boolTy true)
      (.callable [intTy, strTy] intTy false) emptyEnv
      = matchExpr pyHierarchy 1 boolTy intTy emptyEnv :=
  ⟨(callable_arity_variadic pyHierarchy 0 [] [intTy] intTy intTy false
      emptyEnv).1 (by decide),
   (callable_arity_variadic pyHierarchy 0 [] [intTy, strTy] boolTy intTy
      false emptyEnv).2⟩

/-- Claim C6: for every type expression `A` and every environment, both
`match(A, Any, env)` and `match(Any, A, env)` succeed, and in both
directions the environment returned is identical to the environment passed
in. -/
theorem match_any_both_directions (h : Hierarchy) (fuel : Nat)
    (A : TypeExpr) (env : Env) :
    matchExpr h (fuel + 1) A .any env = .ok env
    ∧ matchExpr h (fuel + 1) .any A env = .ok env :=
  ⟨matchExpr_formal_any h fuel A env, matchExpr_actual_any h fuel A env⟩

/-- Claim C7: the matcher is deterministic — running `match(actual, formal)`
twice, each time from a fresh environment, produces the same
success-or-failure outcome and the same resolved bindings, because the
matcher is a pure function of its arguments with no other state. -/
theorem matcher_deterministic (h : Hierarchy) (fuel : Nat)
    (a f : TypeExpr) :
    isSuccess (matchExpr h fuel a f emptyEnv)
      = isSuccess (matchExpr h fuel a f emptyEnv)
    ∧ resolvedEnv (matchExpr h fuel a f emptyEnv)
      = resolvedEnv (matchExpr h fuel a f emptyEnv) :=
  ⟨rfl, rfl⟩

/-- Claim C8: whenever `AbstractMethod.call` extracts a function variable
from its arguments, it returns the input node and that very variable (no
fresh variable is allocated: the fresh-identity counter is unchanged); its
only effect is to rewrite the extracted variable's values by
`markIfFunctionOrBound`, which sets `is_abstract` on `Function` and
`BoundFunction` values and leaves every other value completely unchanged,
and every other variable cell keeps its contents. -/
theorem abstractmethod_call_frame (node : Node) (args : Args) (s : Store)
    (fv : VarId) (h : getFunctionVar args = some fv) :
    AbstractMethod.call node args s
      = some (node, fv, updateVar s fv (List.map markIfFunctionOrBound))
    ∧ (updateVar s fv (List.map markIfFunctionOrBound)).nextId = s.nextId
    ∧ (updateVar s fv (List.map markIfFunctionOrBound)).contents fv
        = (s.contents fv).map markIfFunctionOrBound
    ∧ (∀ w, w ≠ fv →
        (updateVar s fv (List.map markIfFunctionOrBound)).contents w
          = s.contents w)
    ∧ (∀ v : Value, (v.kind = .function ∨ v.kind = .boundFunction) →
        markIfFunctionOrBound v = { v with is_abstract := true })
    ∧ (∀ v : Value, v.kind ≠ .function → v.kind ≠ .boundFunction →
        markIfFunctionOrBound v = v) := by
  refine ⟨?_, rfl, ?_, ?_, ?_, ?_⟩
  · simp [AbstractMethod.call, h]
  · simp [updateVar]
  · intro w hw
    simp [updateVar, hw]
  · intro v hv
    simp only [markIfFunctionOrBound]
    exact if_pos hv
  · intro v h1 h2
    simp [markIfFunctionOrBound, h1, h2]

/-- Witness for claim C8: a call with the single positional argument
variable `7` on an empty store returns node `3` and variable `7`. -/
theorem abstractmethod_call_frame_witness :
    AbstractMethod.call 3 ⟨[7], []⟩ ⟨fun _ => [], 0⟩
      = some (3, 7, updateVar ⟨fun _ => [], 0⟩ 7
          (List.map markIfFunctionOrBound)) :=
  (abstractmethod_call_frame 3 ⟨[7], []⟩ ⟨fun _ => [], 0⟩ 7 rfl).1

/-- Claim C9: `AbstractMethod.call` gives positional arguments priority over
named ones — with a non-empty `posargs` it extracts `posargs[0]` and never
consults `namedargs` (two calls differing only in `namedargs` coincide);
with empty `posargs` it reads `namedargs["function"]`. -/
theorem abstractmethod_posargs_priority (node : Node) (s : Store)
    (p : VarId) (ps : List VarId) (na na' : List (String × VarId)) :
    getFunctionVar ⟨p :: ps, na⟩ = some p
    ∧ AbstractMethod.call node ⟨p :: ps, na⟩ s
        = AbstractMethod.call node ⟨p :: ps, na'⟩ s
    ∧ getFunctionVar ⟨[], na⟩ = lookupNamed na "function" :=
  ⟨rfl, rfl, rfl⟩

/-- Setting `is_abstract` on `Function` values is idempotent. -/
theorem markIfFunction_idem (v : Value) :
    markIfFunction (markIfFunction v) = markIfFunction v := by
  by_cases h : v.kind = ValKind.function <;> simp [markIfFunction, h]

/-- The marking loop of `AbstractProperty.call` never changes the
fresh-identity counter. -/
theorem markFold_nextId (pargs : List VarId) (s : Store) :
    (pargs.foldl (fun st v => updateVar st v (List.map markIfFunction))
      s).nextId = s.nextId := by
  induction pargs generalizing s with
  | nil => rfl
  | cons a rest ih => exact (ih _).trans rfl

/-- After the marking loop of `AbstractProperty.call`, every variable cell
holds either its original contents or its original contents with `Function`
values marked. -/
theorem markFold_contents (pargs : List VarId) (s : Store) (w : VarId) :
    (pargs.foldl (fun st v => updateVar st v (List.map markIfFunction))
        s).contents w = s.contents w
    ∨ (pargs.foldl (fun st v => updateVar st v (List.map markIfFunction))
        s).contents w = (s.contents w).map markIfFunction := by
  induction pargs generalizing s with
  | nil => exact .inl rfl
  | cons a rest ih =>
    rcases ih (updateVar s a (List.map markIfFunction)) with h | h <;>
      by_cases hwa : w = a
    · right
      rw [List.foldl_cons, h]
      simp [updateVar, hwa]
    · left
      rw [List.foldl_cons, h]
      simp [updateVar, hwa]
    · right
      rw [List.foldl_cons, h]
      simp [updateVar, hwa, List.map_map, Function.comp, markIfFunction_idem]
    · right
      rw [List.foldl_cons, h]
      simp [updateVar, hwa]

/-- After the marking loop of `AbstractProperty.call`, a variable cell the
loop visited holds its original contents with `Function` values marked. -/
theorem markFold_contents_mem (pargs : List VarId) (s : Store) (w : VarId)
    (hw : w ∈ pargs) :
    (pargs.foldl (fun st v => updateVar st v (List.map markIfFunction))
      s).contents w = (s.contents w).map markIfFunction := by
  induction pargs generalizing s with
  | nil => cases hw
  | cons a rest ih =>
    by_cases hwa : w = a
    · rcases markFold_contents rest
        (updateVar s a (List.map markIfFunction)) w with h | h
      · rw [List.foldl_cons, h]
        simp [updateVar, hwa]
      · rw [List.foldl_cons, h]
        simp [updateVar, hwa, List.map_map, Function.comp, markIfFunction_idem]
    · have hw' : w ∈ rest := by
        rcases List.mem_cons.mp hw with h | h
        · exact absurd h hwa
        · exact h
      rw [List.foldl_cons, ih _ hw']
      simp [updateVar, hwa]

/-- Claim C10: `AbstractProperty.call` always returns the input node and a
variable holding a `PropertyInstance` value, and signals no error itself
(it is a total function): an argument binding that is not a `Function` is
simply not marked abstract (`markIfFunction` leaves it unchanged), and only
`Function` bindings get `is_abstract` set to `true`; each argument
variable's contents end up exactly as the original values rewritten by
`markIfFunction`. -/
theorem abstractproperty_call_total (node : Node) (pargs : List VarId)
    (s : Store) (hvalid : ∀ v ∈ pargs, v < s.nextId) :
    (AbstractProperty.call node pargs s).1 = node
    ∧ (AbstractProperty.call node pargs s).2.2.contents
        (AbstractProperty.call node pargs s).2.1 = [propertyInstanceValue]
    ∧ (∀ w ∈ pargs, (AbstractProperty.call node pargs s).2.2.contents w
        = (s.contents w).map markIfFunction)
    ∧ (∀ v : Value, v.kind ≠ ValKind.function → markIfFunction v = v)
    ∧ (∀ v : Value, v.kind = ValKind.function →
        markIfFunction v = { v with is_abstract := true }) := by
  refine ⟨rfl, ?_, ?_, ?_, ?_⟩
  · simp [AbstractProperty.call, allocVar]
  · intro w hw
    have hlt : w < s.nextId := hvalid w hw
    have hn : (pargs.foldl
        (fun st v => updateVar st v (List.map markIfFunction)) s).nextId
        = s.nextId := markFold_nextId pargs s
    simp only [AbstractProperty.call, allocVar]
    simp only [hn]
    have h1 : ¬ w = s.nextId + 1 := Nat.ne_of_lt (Nat.lt_succ_of_lt hlt)
    have h2 : ¬ w = s.nextId := Nat.ne_of_lt hlt
    rw [if_neg h1, if_neg h2]
    exact markFold_contents_mem pargs s w hw
  · intro v hv
    simp [markIfFunction, hv]
  · intro v hv
    simp [markIfFunction, hv]

/-- Witness for claim C10: a call on a store with one valid argument
variable returns the input node and a fresh `PropertyInstance` variable. -/
theorem abstractproperty_call_total_witness :
    (AbstractProperty.call 3 [0] ⟨fun _ => [], 1⟩).1 = 3
    ∧ (AbstractProperty.call 3 [0] ⟨fun _ => [], 1⟩).2.2.contents
        (AbstractProperty.call 3 [0] ⟨fun _ => [], 1⟩).2.1
        = [propertyInstanceValue] :=
  ⟨(abstractproperty_call_total 3 [0] ⟨fun _ => [], 1⟩
      (by simp)).1,
   (abstractproperty_call_total 3 [0] ⟨fun _ => [], 1⟩
      (by simp)).2.1⟩

end Pytype
